import Mathlib

/-!
Verification development for the alpha-pile-system repository: a
constraint-based pile-driving scheduling engine with a Monte-Carlo risk
estimator, driven by a React front end.

The repository sources under src/ contain the front end (TypeScript) and the
project README; the back-end engine itself (the CP-SAT scheduling module
described by the README and typed by src/alpha-pile-fronted/src/services
interfaces) is not part of the available sources.  Engine-level definitions
below are therefore modelled from the specification, as indicated by their
doc comments; front-end functions (CSV upload, parameter updates) are
translated directly from the TypeScript sources.

Numbers are modelled as rationals; times are hours from a common origin.
-/

namespace AlphaPile


/-- A pile record: identifier, plan position, type class and diameter.
Mirrors the PileData interface of src/alpha-pile-fronted/src/services (ids are
sent as strings by the front end) and the README parameter list. -/
structure Pile where
  id : String
  x : ℚ
  y : ℚ
  ptype : ℕ
  diameter : ℚ
deriving DecidableEq

/-- A scheduled task, mirroring the TaskInfoApi interface
(pile reference, machine id, zone id, start, end, duration in hours). -/
structure ScheduledTask where
  pile : Pile
  machine : ℕ
  zone_id : ℕ
  start_hour : ℚ
  end_hour : ℚ
  duration_hour : ℚ
deriving DecidableEq

/-- Engine configuration, mirroring the ScheduleRequestData interface minus
the pile list, plus the per-type log-normal shape parameters (mu, sigma)
described by the spec section 4.2 (the README keys pile types to duration
data; the spec refines this to log-normal shape parameters per type). -/
structure EngineConfig where
  num_machines : ℤ
  duration_scenario : String
  weather_buffer_hours : ℚ
  monte_carlo_simulations : ℕ
  forbidden_duration_hours : ℚ
  simultaneous_exclude_half_side : ℚ
  forbidden_zone_diameter_multiplier : ℚ
  num_zones : ℤ
  zone_penalty_hours : ℚ
  solver_num_workers : ℕ
  solver_max_time : ℚ
  pileTypeParams : List (ℕ × ℚ × ℚ)
deriving DecidableEq

/-- A solve request: configuration plus the pile list. -/
structure Request where
  cfg : EngineConfig
  piles : List Pile
deriving DecidableEq

/-- Modelled from the spec: the simultaneous-exclusion test of section 4.3.
Two piles conflict when each coordinate difference is within
simultaneous_exclude_half_side (a half-width safety margin around each pile,
per the README: half side length of the exclusion square). -/
def withinExclusion (cfg : EngineConfig) (a b : Pile) : Prop :=
  |a.x - b.x| ≤ cfg.simultaneous_exclude_half_side ∧
  |a.y - b.y| ≤ cfg.simultaneous_exclude_half_side

instance (cfg : EngineConfig) (a b : Pile) : Decidable (withinExclusion cfg a b) := by
  unfold withinExclusion; exact inferInstance

/-- Post-completion forbidden radius of a pile:
diameter times forbidden_zone_diameter_multiplier, halved (spec section 3). -/
def forbiddenRadius (cfg : EngineConfig) (a : Pile) : ℚ :=
  a.diameter * cfg.forbidden_zone_diameter_multiplier / 2

/-- Modelled from the spec: pile b lies inside the post-completion
forbidden region of pile a (squared Euclidean comparison, section 3). -/
def inForbiddenZone (cfg : EngineConfig) (a b : Pile) : Prop :=
  (b.x - a.x) * (b.x - a.x) + (b.y - a.y) * (b.y - a.y) ≤
    forbiddenRadius cfg a * forbiddenRadius cfg a

instance (cfg : EngineConfig) (a b : Pile) : Decidable (inForbiddenZone cfg a b) := by
  unfold inForbiddenZone; exact inferInstance

/-- The active intervals of two tasks overlap in time (half-open intervals). -/
def timeOverlap (s t : ScheduledTask) : Prop :=
  s.start_hour < t.end_hour ∧ t.start_hour < s.end_hour

instance (s t : ScheduledTask) : Decidable (timeOverlap s t) := by
  unfold timeOverlap; exact inferInstance

/-! ### Zone partitioner

Modelled from the spec (sections 4.1 and 9): the exact clustering rule is a
free design choice; the modelled partitioner deterministically assigns the
i-th input pile to zone i modulo the effective zone count, which satisfies
all the partition invariants demanded by section 4.1. -/

/-- Effective zone count: num_zones clamped below by 1 and above by the pile
count (spec: degrade to the nearest feasible zone count). -/
def effectiveNumZones (k : ℤ) (n : ℕ) : ℕ :=
  min (max k 1).toNat n

/-- Zone of the pile at position i among n piles. -/
def zoneOfIndex (k : ℤ) (n i : ℕ) : ℕ :=
  i % effectiveNumZones k n

/-- Output of the partitioner: one zone id per pile, in input order. -/
def zoneAssignment (k : ℤ) (n : ℕ) : List ℕ :=
  (List.range n).map (zoneOfIndex k n)

/-! ### Search engine

Modelled from the spec (sections 4.3 and 4.4): the real engine is a CP-SAT
search over interval variables; only the constraints it enforces are
observable.  The model below constructs, deterministically, one schedule
satisfying every constraint of section 4.3 (machine disjointness with
zone-transition penalties, simultaneous exclusion, forbidden-zone
separation); minimality of the makespan is not modelled, as no claim
depends on it. -/

/-- Machine assigned to the i-th pile (round robin over the configured
machines). -/
def machineOf (cfg : EngineConfig) (i : ℕ) : ℕ :=
  i % cfg.num_machines.toNat

/-- Lower bound that an already placed task q imposes on the start of a new
task for pile p on machine m in zone z: machine sequencing with zone
penalty, simultaneous exclusion, and both directions of the forbidden-zone
rule (spec section 4.3). -/
def pairBound (cfg : EngineConfig) (p : Pile) (m z : ℕ) (q : ScheduledTask) : ℚ :=
  max
    (max (if q.machine = m then
            q.end_hour + (if q.zone_id ≠ z then cfg.zone_penalty_hours else 0)
          else 0)
         (if withinExclusion cfg q.pile p then q.end_hour else 0))
    (max (if inForbiddenZone cfg q.pile p then
            q.end_hour + cfg.forbidden_duration_hours
          else 0)
         (if inForbiddenZone cfg p q.pile then q.end_hour else 0))

/-- Start time chosen for the new task: the earliest time at or after hour 0
satisfying every pairwise lower bound against the already placed tasks. -/
def startTime (cfg : EngineConfig) (placed : List ScheduledTask)
    (p : Pile) (m z : ℕ) : ℚ :=
  placed.foldr (fun q acc => max (pairBound cfg p m z q) acc) 0

/-- Build the task for pile p given the already placed tasks. -/
def mkTask (cfg : EngineConfig) (dur : ℕ → Pile → ℚ)
    (placed : List ScheduledTask) (p : Pile) (i m z : ℕ) : ScheduledTask :=
  let s := startTime cfg placed p m z
  ⟨p, m, z, s, s + dur i p, dur i p⟩

/-- Scheduling loop: place the piles one by one, in input order. -/
def scheduleAux (cfg : EngineConfig) (dur : ℕ → Pile → ℚ) (n : ℕ) :
    List Pile → ℕ → List ScheduledTask → List ScheduledTask
  | [], _, acc => acc
  | p :: rest, i, acc =>
      scheduleAux cfg dur n rest (i + 1)
        (acc ++ [mkTask cfg dur acc p i (machineOf cfg i) (zoneOfIndex cfg.num_zones n i)])

/-- The completed schedule the modelled engine returns for a pile list. -/
def solveSchedule (cfg : EngineConfig) (dur : ℕ → Pile → ℚ)
    (piles : List Pile) : List ScheduledTask :=
  scheduleAux cfg dur piles.length piles 0 []

/-- Ordering relation the schedule maintains between an earlier task a and a
later task b: every section 4.3 constraint, directed in time. -/
def taskOrder (cfg : EngineConfig) (a b : ScheduledTask) : Prop :=
  (a.machine = b.machine →
    a.end_hour + (if a.zone_id ≠ b.zone_id then cfg.zone_penalty_hours else 0) ≤ b.start_hour) ∧
  (withinExclusion cfg a.pile b.pile → a.end_hour ≤ b.start_hour) ∧
  (inForbiddenZone cfg a.pile b.pile →
    a.end_hour + cfg.forbidden_duration_hours ≤ b.start_hour) ∧
  (inForbiddenZone cfg b.pile a.pile → a.end_hour ≤ b.start_hour)

/-! ### Concrete scenario: two mutually-in-radius piles, two machines

Configuration following the README defaults (forbidden_duration_hours 36,
multiplier 12), with the exclusion margin set to 0 so that only the
forbidden-zone rule links the two piles.  Both piles lie inside the
forbidden radius of the other (distance 1, radius 9). -/

def cexCfg : EngineConfig :=
  { num_machines := 2
    duration_scenario := "expected"
    weather_buffer_hours := 0
    monte_carlo_simulations := 2
    forbidden_duration_hours := 36
    simultaneous_exclude_half_side := 0
    forbidden_zone_diameter_multiplier := 12
    num_zones := 1
    zone_penalty_hours := 10
    solver_num_workers := 6
    solver_max_time := 360
    pileTypeParams := [(1, 316/100, 63/100)] }

def cexPileA : Pile := ⟨"1", 0, 0, 1, 3/2⟩

def cexPileB : Pile := ⟨"2", 1, 0, 1, 3/2⟩

def cexDur : ℕ → Pile → ℚ := fun _ _ => 33

/-- First task of the scenario schedule: pile 1 on machine 0, hours 0 to 33. -/
def cexTask0 : ScheduledTask := ⟨cexPileA, 0, 0, 0, 33, 33⟩

/-- Second task of the scenario schedule: pile 2 on machine 1, serialized
behind the 36-hour forbidden window of the first task (hours 69 to 102). -/
def cexTask1 : ScheduledTask := ⟨cexPileB, 1, 0, 69, 102, 33⟩

def w2Cfg : EngineConfig := { cexCfg with simultaneous_exclude_half_side := 16 }

def w5Piles : List Pile := [cexPileA, cexPileB]

/-! ### Result extractor

Modelled from the spec (section 4.5): the extractor turns the found
assignment into the task sequence and computes the makespan as the maximum
task end time. -/

/-- Maximum end_hour over a schedule (0 for an empty schedule). -/
def maxEnd : List ScheduledTask → ℚ
  | [] => 0
  | t :: ts => ts.foldl (fun acc u => max acc u.end_hour) t.end_hour

/-! ### Duration resolver

Modelled from the spec (section 4.2): each pile type maps to log-normal
shape parameters (mu, sigma); a scenario resolves to a duration
exp(logDuration).  The numeric exponential of the host language is kept
abstract (theorems take it as a parameter); the definitions below compute
in the log domain.  The random_sample scenario draws one value per pile
from a seeded linear congruential generator standing in for the host
pseudo-random normal draw. -/

inductive Scenario where
  | expected
  | pessimistic90
  | mostLikely
  | randomSample
deriving DecidableEq

/-- Parse the duration_scenario request string (section 6 of the spec). -/
def parseScenario : String → Option Scenario
  | "expected" => some .expected
  | "pessimistic_90" => some .pessimistic90
  | "most_likely" => some .mostLikely
  | "random_sample" => some .randomSample
  | _ => none

/-- The 90th percentile of the standard normal distribution, to 4 decimal
places, as the engine would embed it numerically. -/
def z90 : ℚ := 12816 / 10000

/-- Linear congruential pseudo-random step (glibc constants, modulus 2^31). -/
def lcg (s : ℕ) : ℕ := (1103515245 * s + 12345) % 2147483648

/-- A seeded stand-in for one standard-normal draw, in [-3, 3]. -/
def pseudoNormal (s : ℕ) : ℚ := ((lcg s % 1201 : ℕ) : ℚ) / 200 - 3

/-- Log-domain duration for a scenario given shape parameters (mu, sigma):
mean exponent mu + sigma^2/2, 90th-percentile exponent mu + sigma z90, mode
exponent mu - sigma^2, or a seeded per-pile random exponent. -/
def resolveLogDuration (sc : Scenario) (seed i : ℕ) (mu sg : ℚ) : ℚ :=
  match sc with
  | .expected => mu + sg * sg / 2
  | .pessimistic90 => mu + sg * z90
  | .mostLikely => mu - sg * sg
  | .randomSample => mu + sg * pseudoNormal (seed + 6151 * i)

/-- Shape parameters configured for a pile type, if any. -/
def lookupTypeParams (cfg : EngineConfig) (t : ℕ) : Option (ℚ × ℚ) :=
  (cfg.pileTypeParams.find? (fun e => e.1 == t)).map (fun e => e.2)

/-- Run-level seed (the spec fixes a global seed for reproducibility). -/
def globalSeed : ℕ := 123456789

/-- Per-pile durations resolved for the deterministic solve, given the host
exponential ex; the getD fallback is unreachable for validated requests. -/
def resolveDur (ex : ℚ → ℚ) (cfg : EngineConfig) (sc : Scenario) : ℕ → Pile → ℚ :=
  fun i p =>
    let ms := (lookupTypeParams cfg p.ptype).getD (0, 1)
    ex (resolveLogDuration sc globalSeed i ms.1 ms.2)

/-! ### Risk simulator

Modelled from the spec (section 4.6): each trial re-draws the duration of
every pile (seeded per trial and per pile) while keeping the machine
assignment and per-machine order fixed, replays the timeline of each machine
sequentially honoring zone-transition penalties, and records the trial
makespan; completion probability is the fraction of trials at or below the
buffered deterministic makespan. -/

/-- Sequential replay of the (zone, duration) list of one machine: each task
starts when the previous ends, plus the zone penalty on a zone change. -/
def replayTimeline (pen : ℚ) : List (ℕ × ℚ) → ℚ → Option ℕ → ℚ
  | [], t, _ => t
  | (z, d) :: rest, t, pz =>
      replayTimeline pen rest
        (t + (match pz with | none => 0 | some z0 => if z0 = z then 0 else pen) + d)
        (some z)

/-- Re-drawn duration of the pile at schedule position idx in trial tr
(seeded stand-in for the log-normal re-draw; always at least 1). -/
def simTrialDuration (seed tr idx : ℕ) : ℚ :=
  ((lcg (seed + 7919 * tr + 104729 * idx) % 4000 : ℕ) : ℚ) / 100 + 1

/-- Makespan of one Monte-Carlo trial: replay the task list of every machine
with the durations of the trial and take the latest finish time. -/
def trialMakespan (cfg : EngineConfig) (sched : List ScheduledTask)
    (seed tr : ℕ) : ℚ :=
  (List.range cfg.num_machines.toNat).foldl
    (fun acc m =>
      max acc (replayTimeline cfg.zone_penalty_hours
        ((sched.enum.filter (fun e => e.2.machine == m)).map
          (fun e => (e.2.zone_id, simTrialDuration seed tr e.1))) 0 none))
    0

/-- The list of simulated makespans, one per trial. -/
def trialMakespans (cfg : EngineConfig) (sched : List ScheduledTask)
    (seed nsim : ℕ) : List ℚ :=
  (List.range nsim).map (trialMakespan cfg sched seed)

/-- Fraction of trials whose simulated makespan is at or below the
threshold (0 when no trial ran). -/
def completionProbability (trials : List ℚ) (threshold : ℚ) : ℚ :=
  (trials.countP (fun m => decide (m ≤ threshold)) : ℚ) / trials.length

/-! ### Validation and pipeline

Modelled from the spec (sections 4.2, 6 and 7): requests are validated
before any model construction; validation failures abort the request with a
ValidationError or ConfigurationError and no result fields. -/

inductive EngineError where
  | validationError (msg : String)
  | configurationError (msg : String)
deriving DecidableEq

/-- Input validation, performed before any model construction: duplicate
pile ids, non-positive machine count, unknown duration scenario
(ValidationError), then unknown pile type (ConfigurationError). -/
def validate (req : Request) : Option EngineError :=
  if (req.piles.map Pile.id).Nodup then
    if req.cfg.num_machines ≤ 0 then
      some (.validationError "num_machines must be a positive integer")
    else
      match parseScenario req.cfg.duration_scenario with
      | none => some (.validationError "unknown duration_scenario")
      | some _ =>
          if req.piles.any (fun p => (lookupTypeParams req.cfg p.ptype).isNone) then
            some (.configurationError "unknown pile type")
          else none
  else some (.validationError "duplicate pile ids")

/-- The completed result record (section 6 output fields used by claims). -/
structure OptimizationResult where
  status : String
  makespan_hours : ℚ
  estimated_makespan_with_buffer : ℚ
  completion_probability : ℚ
  num_simulations : ℕ
  schedule : List ScheduledTask
deriving DecidableEq

/-- Model construction, search, extraction and risk simulation for a
validated request. -/
def buildResult (ex : ℚ → ℚ) (req : Request) : OptimizationResult :=
  let sc := (parseScenario req.cfg.duration_scenario).getD .expected
  let sched := solveSchedule req.cfg (resolveDur ex req.cfg sc) req.piles
  let mk := maxEnd sched
  let est := mk + req.cfg.weather_buffer_hours
  let trials := trialMakespans req.cfg sched globalSeed req.cfg.monte_carlo_simulations
  { status := "FEASIBLE"
    makespan_hours := mk
    estimated_makespan_with_buffer := est
    completion_probability := completionProbability trials est
    num_simulations := trials.length
    schedule := sched }

/-- One full solve invocation: validate, then build; validation failures
yield an error and no result record. -/
def solveRequest (ex : ℚ → ℚ) (req : Request) : Except EngineError OptimizationResult :=
  match validate req with
  | some e => .error e
  | none => .ok (buildResult ex req)

/-- The schedule a validated request resolves to (abbreviation used to
state weather-buffer independence). -/
def bSched (ex : ℚ → ℚ) (req : Request) : List ScheduledTask :=
  solveSchedule req.cfg
    (resolveDur ex req.cfg ((parseScenario req.cfg.duration_scenario).getD .expected))
    req.piles

/-- The trial makespans a validated request resolves to. -/
def bTrials (ex : ℚ → ℚ) (req : Request) : List ℚ :=
  trialMakespans req.cfg (bSched ex req) globalSeed req.cfg.monte_carlo_simulations

def wEx : ℚ → ℚ := fun _ => 33

def wReq : Request := ⟨cexCfg, [cexPileA, cexPileB]⟩

def wBadReq : Request := ⟨{ cexCfg with duration_scenario := "bogus" }, [cexPileA]⟩

/-! ### Front end: CSV pile upload

Translated from PileDataInput.handleFileUpload and validateCsvHeaders in
src/alpha-pile-fronted/src/components (the PileTypeDurationEditor source
file).  A parsed CSV row holds the five expected columns as optional raw
strings (a missing column is None, as PapaParse leaves absent keys
undefined).  JS parseFloat and parseInt are modelled on plain decimal
numerals: an optional sign, a digit prefix, and for parseFloat an optional
fraction part; exponent, hexadecimal, whitespace and Infinity forms are not
modelled. -/

structure CsvRow where
  id : Option String
  x : Option String
  y : Option String
  typ : Option String
  diameter : Option String
deriving DecidableEq

/-- A validated pile row, mirroring ExpectedPileData (id kept as-is, x, y
and diameter through parseFloat, type through parseInt base 10). -/
structure PileRecord where
  id : String
  x : ℚ
  y : ℚ
  typ : ℤ
  diameter : ℚ
deriving DecidableEq

/-- Numeric value of a digit list (most significant first). -/
def digitsVal (cs : List Char) : ℕ :=
  cs.foldl (fun a c => a * 10 + (c.toNat - 48)) 0

/-- Strip an optional sign, returning whether the value is negated. -/
def parseSign : List Char → Bool × List Char
  | '-' :: t => (true, t)
  | '+' :: t => (false, t)
  | cs => (false, cs)

/-- Model of JS parseFloat on decimal numerals: longest prefix of the form
sign, digits, optional point and fraction digits; NaN (None) when no digit
is found. -/
def parseFloatQ (s : String) : Option ℚ :=
  let sp := parseSign s.data
  let ds := sp.2.takeWhile Char.isDigit
  let rest := sp.2.dropWhile Char.isDigit
  let fs := match rest with
    | '.' :: t => t.takeWhile Char.isDigit
    | _ => []
  if ds.isEmpty ∧ fs.isEmpty then none
  else
    let v : ℚ := (digitsVal ds : ℚ) + (digitsVal fs : ℚ) / ((10 ^ fs.length : ℕ) : ℚ)
    some (if sp.1 then -v else v)

/-- Model of JS parseInt(s, 10): sign and longest digit prefix; NaN (None)
when no digit is found. -/
def parseIntZ (s : String) : Option ℤ :=
  let sp := parseSign s.data
  let ds := sp.2.takeWhile Char.isDigit
  if ds.isEmpty then none
  else some (if sp.1 then -(digitsVal ds : ℤ) else (digitsVal ds : ℤ))

/-- Row conversion step of handleFileUpload: parse x, y, type, diameter; a
row in which any of the four fails numeric parsing is mapped to None (the
code logs a warning and returns null for it); id is carried over as-is. -/
def parsePileRow (r : CsvRow) : Option PileRecord :=
  match parseFloatQ (r.x.getD ""), parseFloatQ (r.y.getD ""),
      parseIntZ (r.typ.getD ""), parseFloatQ (r.diameter.getD "") with
  | some xq, some yq, some tz, some dq => some ⟨r.id.getD "", xq, yq, tz, dq⟩
  | _, _, _, _ => none

/-- validateCsvHeaders: the parsed data is a non-empty array whose first
row carries all five required keys. -/
def validateCsvHeaders (rows : List CsvRow) : Bool :=
  match rows with
  | [] => false
  | r :: _ =>
      r.id.isSome && r.x.isSome && r.y.isSome && r.typ.isSome && r.diameter.isSome

/-- State effect of handleFileUpload on the loaded pile data: rows failing
numeric parsing are dropped; loadPileData replaces the previous data only
when at least one valid row remains, otherwise (and on a failed header
check) the previous data is kept and only a message is shown. -/
def handleFileUpload (prev : List PileRecord) (rows : List CsvRow) :
    List PileRecord :=
  if validateCsvHeaders rows then
    let validated := rows.filterMap parsePileRow
    if 0 < validated.length then validated else prev
  else prev

/-! ### Front end: configuration parameter updates

Translated from handleParamChange in src/pages/PilePlanningPage (source
file src/unnamed/part_004) and updateConfigParam with defaultConfigParams
in src/alpha-pile-fronted/src/contexts/ScheduleContext.tsx.  JS numbers are
modelled with explicit NaN and signed infinities; the configuration object
is a total map from parameter keys to JS values.  JS Number() on strings is
modelled on canonical full-string decimal numerals plus the Infinity
literals. -/

inductive JSNum where
  | fin (q : ℚ)
  | inf
  | negInf
  | nan
deriving DecidableEq

inductive JSValue where
  | num (n : JSNum)
  | str (s : String)
  | null
  | undef
deriving DecidableEq

/-- The configuration parameter keys of ScheduleRequestData minus piles. -/
inductive ParamKey where
  | num_machines
  | duration_scenario
  | weather_buffer_hours
  | monte_carlo_simulations
  | forbidden_duration_hours
  | simultaneous_exclude_half_side
  | forbidden_zone_diameter_multiplier
  | num_zones
  | zone_penalty_hours
  | solver_num_workers
  | solver_max_time
deriving DecidableEq

/-- defaultConfigParams from ScheduleContext.tsx. -/
def defaultConfigParams : ParamKey → JSValue
  | .num_machines => .num (.fin 3)
  | .duration_scenario => .str "expected"
  | .weather_buffer_hours => .num (.fin 0)
  | .monte_carlo_simulations => .num (.fin 1000)
  | .forbidden_duration_hours => .num (.fin 36)
  | .simultaneous_exclude_half_side => .num (.fin 10)
  | .forbidden_zone_diameter_multiplier => .num (.fin 12)
  | .num_zones => .num (.fin 3)
  | .zone_penalty_hours => .num (.fin 10)
  | .solver_num_workers => .num (.fin 6)
  | .solver_max_time => .num (.fin 360)

/-- Model of JS Number() on a string: empty string is 0, Infinity literals
are the infinities, a full-string signed decimal numeral is its value, and
anything else is NaN. -/
def strToNum (s : String) : JSNum :=
  if s = "" then .fin 0
  else if s = "Infinity" ∨ s = "+Infinity" then .inf
  else if s = "-Infinity" then .negInf
  else
    let sp := parseSign s.data
    let ds := sp.2.takeWhile Char.isDigit
    let rest := sp.2.dropWhile Char.isDigit
    match rest with
    | [] =>
        if ds.isEmpty then .nan
        else .fin (if sp.1 then -(digitsVal ds : ℚ) else (digitsVal ds : ℚ))
    | '.' :: t =>
        let fs := t.takeWhile Char.isDigit
        if (t.dropWhile Char.isDigit).isEmpty ∧ ¬(ds.isEmpty ∧ fs.isEmpty) then
          let v : ℚ := (digitsVal ds : ℚ) + (digitsVal fs : ℚ) / ((10 ^ fs.length : ℕ) : ℚ)
          .fin (if sp.1 then -v else v)
        else .nan
    | _ => .nan

/-- Model of JS Number() on a value. -/
def toNumber : JSValue → JSNum
  | .num n => n
  | .str s => strToNum s
  | .null => .fin 0
  | .undef => .nan

/-- The conversion handleParamChange applies: null and undefined become NaN
directly, anything else goes through Number(). -/
def jsToNumValue : JSValue → JSNum
  | .null => .nan
  | .undef => .nan
  | v => toNumber v

/-- typeof current value is number. -/
def isNumberType : JSValue → Bool
  | .num _ => true
  | _ => false

/-- updateConfigParam from ScheduleContext.tsx: spread the previous object
and overwrite exactly the named key. -/
def updateConfigParam (cfg : ParamKey → JSValue) (p : ParamKey) (v : JSValue) :
    ParamKey → JSValue :=
  fun q => if q = p then v else cfg q

/-- handleParamChange from PilePlanningPage: when the current value of the
parameter is a number, convert the input (null and undefined map to NaN)
and update the parameter only when the conversion is not NaN (otherwise
only a console warning is produced); non-number parameters are updated with
the raw value. -/
def handleParamChange (cfg : ParamKey → JSValue) (p : ParamKey) (v : JSValue) :
    ParamKey → JSValue :=
  if isNumberType (cfg p) then
    if jsToNumValue v ≠ JSNum.nan then updateConfigParam cfg p (.num (jsToNumValue v))
    else cfg
  else updateConfigParam cfg p v

def wRowGood : CsvRow := ⟨some "1", some "2", some "-1", some "1", some "1.5"⟩

def wRowBad : CsvRow := ⟨some "2", some "abc", some "0", some "1", some "2"⟩

def wPrev : List PileRecord := [⟨"old", 0, 0, 1, 1⟩]

/-! ### Theorems -/

theorem withinExclusion_symm (cfg : EngineConfig) (a b : Pile)
    (h : withinExclusion cfg a b) : withinExclusion cfg b a := by
  unfold withinExclusion at h ⊢
  rwa [abs_sub_comm b.x a.x, abs_sub_comm b.y a.y]

theorem effectiveNumZones_pos (k : ℤ) (n : ℕ) (hn : 0 < n) :
    0 < effectiveNumZones k n := by
  unfold effectiveNumZones
  have h1 : (1 : ℤ) ≤ max k 1 := le_max_right k 1
  have : (1 : ℕ) ≤ (max k 1).toNat := by omega
  omega

theorem zoneAssignment_length (k : ℤ) (n : ℕ) :
    (zoneAssignment k n).length = n := by
  simp [zoneAssignment]

theorem zoneAssignment_lt (k : ℤ) (n : ℕ) :
    ∀ z ∈ zoneAssignment k n, z < effectiveNumZones k n := by
  intro z hz
  rcases List.mem_map.mp hz with ⟨i, hi, rfl⟩
  have hn : 0 < n := Nat.lt_of_le_of_lt (Nat.zero_le i) (List.mem_range.mp hi)
  exact Nat.mod_lt _ (effectiveNumZones_pos k n hn)

theorem zoneAssignment_surj (k : ℤ) (n : ℕ) :
    ∀ j < effectiveNumZones k n, j ∈ zoneAssignment k n := by
  intro j hj
  have hjn : j < n := lt_of_lt_of_le hj (min_le_right _ n)
  refine List.mem_map.mpr ⟨j, List.mem_range.mpr hjn, ?_⟩
  exact Nat.mod_eq_of_lt hj

theorem zoneAssignment_own_zone (k : ℤ) (n : ℕ) (h : (n : ℤ) ≤ k) :
    zoneAssignment k n = List.range n := by
  rcases Nat.eq_zero_or_pos n with h0 | hn
  · subst h0; simp [zoneAssignment]
  · have hk1 : max k 1 = k := max_eq_left (le_trans (by exact_mod_cast hn) h)
    have he : effectiveNumZones k n = n := by
      unfold effectiveNumZones
      rw [hk1]
      have : n ≤ k.toNat := by omega
      omega
    unfold zoneAssignment zoneOfIndex
    rw [he]
    apply List.map_congr_left ?_  |>.trans (List.map_id _)
    intro i hi
    exact Nat.mod_eq_of_lt (List.mem_range.mp hi)

theorem zoneAssignment_single (k : ℤ) (n : ℕ) (hk : k ≤ 0) :
    ∀ z ∈ zoneAssignment k n, z = 0 := by
  intro z hz
  rcases List.mem_map.mp hz with ⟨i, hi, rfl⟩
  have h1 : max k 1 = 1 := max_eq_right (le_trans hk zero_le_one)
  have hn : 0 < n := Nat.lt_of_le_of_lt (Nat.zero_le i) (List.mem_range.mp hi)
  unfold zoneOfIndex effectiveNumZones
  rw [h1]
  have he : min (1 : ℤ).toNat n = 1 := by omega
  rw [he, Nat.mod_one]

theorem pairBound_le_startTime (cfg : EngineConfig) (placed : List ScheduledTask)
    (p : Pile) (m z : ℕ) (q : ScheduledTask) (hq : q ∈ placed) :
    pairBound cfg p m z q ≤ startTime cfg placed p m z := by
  induction placed with
  | nil => cases hq
  | cons r rest ih =>
      rcases List.mem_cons.mp hq with rfl | hmem
      · exact le_max_left _ _
      · exact le_trans (ih hmem) (le_max_right _ _)

theorem taskOrder_mkTask (cfg : EngineConfig) (dur : ℕ → Pile → ℚ)
    (placed : List ScheduledTask) (p : Pile) (i m z : ℕ)
    (q : ScheduledTask) (hq : q ∈ placed) :
    taskOrder cfg q (mkTask cfg dur placed p i m z) := by
  have hb := pairBound_le_startTime cfg placed p m z q hq
  unfold pairBound at hb
  have h1 : (if q.machine = m then
      q.end_hour + (if q.zone_id ≠ z then cfg.zone_penalty_hours else 0) else 0)
      ≤ startTime cfg placed p m z :=
    le_trans (le_trans (le_max_left _ _) (le_max_left _ _)) hb
  have h2 : (if withinExclusion cfg q.pile p then q.end_hour else 0)
      ≤ startTime cfg placed p m z :=
    le_trans (le_trans (le_max_right _ _) (le_max_left _ _)) hb
  have h3 : (if inForbiddenZone cfg q.pile p then
      q.end_hour + cfg.forbidden_duration_hours else 0)
      ≤ startTime cfg placed p m z :=
    le_trans (le_trans (le_max_left _ _) (le_max_right _ _)) hb
  have h4 : (if inForbiddenZone cfg p q.pile then q.end_hour else 0)
      ≤ startTime cfg placed p m z :=
    le_trans (le_trans (le_max_right _ _) (le_max_right _ _)) hb
  unfold taskOrder
  simp only [mkTask]
  refine ⟨fun hm => ?_, fun he => ?_, fun hf => ?_, fun hf => ?_⟩
  · rw [if_pos hm] at h1; exact h1
  · rw [if_pos he] at h2; exact h2
  · rw [if_pos hf] at h3; exact h3
  · rw [if_pos hf] at h4; exact h4

theorem scheduleAux_pairwise (cfg : EngineConfig) (dur : ℕ → Pile → ℚ) (n : ℕ)
    (piles : List Pile) : ∀ (i : ℕ) (acc : List ScheduledTask),
    acc.Pairwise (taskOrder cfg) →
    (scheduleAux cfg dur n piles i acc).Pairwise (taskOrder cfg) := by
  induction piles with
  | nil => intro i acc h; exact h
  | cons p rest ih =>
      intro i acc hacc
      apply ih
      rw [List.pairwise_append]
      refine ⟨hacc, List.pairwise_singleton _ _, ?_⟩
      intro a ha b hb
      rw [List.mem_singleton] at hb
      subst hb
      exact taskOrder_mkTask cfg dur acc p i _ _ a ha

theorem solveSchedule_pairwise (cfg : EngineConfig) (dur : ℕ → Pile → ℚ)
    (piles : List Pile) :
    (solveSchedule cfg dur piles).Pairwise (taskOrder cfg) :=
  scheduleAux_pairwise cfg dur piles.length piles 0 [] (List.Pairwise.nil)

/-- Symmetric access to the pairwise ordering: any two distinct tasks of a
completed schedule are related one way or the other. -/
theorem solveSchedule_order_or (cfg : EngineConfig) (dur : ℕ → Pile → ℚ)
    (piles : List Pile) (a b : ScheduledTask)
    (ha : a ∈ solveSchedule cfg dur piles) (hb : b ∈ solveSchedule cfg dur piles)
    (hne : a ≠ b) : taskOrder cfg a b ∨ taskOrder cfg b a := by
  have hsym : Symmetric (fun x y => taskOrder cfg x y ∨ taskOrder cfg y x) := by
    intro x y h; exact h.symm
  have hp : (solveSchedule cfg dur piles).Pairwise
      (fun x y => taskOrder cfg x y ∨ taskOrder cfg y x) :=
    (solveSchedule_pairwise cfg dur piles).imp (fun h => Or.inl h)
  exact hp.forall hsym ha hb hne

theorem scheduleAux_map_pile (cfg : EngineConfig) (dur : ℕ → Pile → ℚ) (n : ℕ)
    (piles : List Pile) : ∀ (i : ℕ) (acc : List ScheduledTask),
    (scheduleAux cfg dur n piles i acc).map ScheduledTask.pile =
      acc.map ScheduledTask.pile ++ piles := by
  induction piles with
  | nil => intro i acc; simp [scheduleAux]
  | cons p rest ih =>
      intro i acc
      show (scheduleAux cfg dur n rest (i + 1) _).map ScheduledTask.pile = _
      rw [ih]
      simp [mkTask]

theorem solveSchedule_map_pile (cfg : EngineConfig) (dur : ℕ → Pile → ℚ)
    (piles : List Pile) :
    (solveSchedule cfg dur piles).map ScheduledTask.pile = piles := by
  unfold solveSchedule
  rw [scheduleAux_map_pile]
  rfl

theorem scheduleAux_map_zone (cfg : EngineConfig) (dur : ℕ → Pile → ℚ) (n : ℕ)
    (piles : List Pile) : ∀ (i : ℕ) (acc : List ScheduledTask),
    (scheduleAux cfg dur n piles i acc).map ScheduledTask.zone_id =
      acc.map ScheduledTask.zone_id
        ++ (List.range' i piles.length).map (zoneOfIndex cfg.num_zones n) := by
  induction piles with
  | nil => intro i acc; simp [scheduleAux]
  | cons p rest ih =>
      intro i acc
      show (scheduleAux cfg dur n rest (i + 1) _).map ScheduledTask.zone_id = _
      rw [ih]
      simp [mkTask, List.range'_succ]

theorem solveSchedule_map_zone (cfg : EngineConfig) (dur : ℕ → Pile → ℚ)
    (piles : List Pile) :
    (solveSchedule cfg dur piles).map ScheduledTask.zone_id =
      zoneAssignment cfg.num_zones piles.length := by
  unfold solveSchedule zoneAssignment
  rw [scheduleAux_map_zone]
  rw [List.range_eq_range']
  rfl

theorem scheduleAux_start_lt_end (cfg : EngineConfig) (dur : ℕ → Pile → ℚ)
    (n : ℕ) (piles : List Pile) (hdur : ∀ i p, 0 < dur i p) :
    ∀ (i : ℕ) (acc : List ScheduledTask),
    (∀ t ∈ acc, t.start_hour < t.end_hour) →
    ∀ t ∈ scheduleAux cfg dur n piles i acc, t.start_hour < t.end_hour := by
  induction piles with
  | nil => intro i acc hacc; exact hacc
  | cons p rest ih =>
      intro i acc hacc
      apply ih
      intro t ht
      rcases List.mem_append.mp ht with h | h
      · exact hacc t h
      · rw [List.mem_singleton] at h
        subst h
        show startTime cfg acc p _ _ < startTime cfg acc p _ _ + dur i p
        exact lt_add_of_pos_right _ (hdur i p)

theorem solveSchedule_start_lt_end (cfg : EngineConfig) (dur : ℕ → Pile → ℚ)
    (piles : List Pile) (hdur : ∀ i p, 0 < dur i p) :
    ∀ t ∈ solveSchedule cfg dur piles, t.start_hour < t.end_hour :=
  scheduleAux_start_lt_end cfg dur piles.length piles hdur 0 [] (by intro t ht; cases ht)

theorem int_two_toNat : ((2 : ℤ)).toNat = 2 := rfl

set_option maxHeartbeats 2000000 in
theorem cexSchedule_eq : solveSchedule cexCfg cexDur [cexPileA, cexPileB] = [cexTask0, cexTask1] := by
  norm_num [solveSchedule, scheduleAux, mkTask, startTime, pairBound,
    machineOf, zoneOfIndex, effectiveNumZones, withinExclusion, inForbiddenZone,
    forbiddenRadius, int_two_toNat, cexCfg, cexPileA, cexPileB, cexDur, cexTask0, cexTask1]

theorem cexTasks_mutually_in_radius :
    inForbiddenZone cexCfg cexTask0.pile cexTask1.pile ∧
    inForbiddenZone cexCfg cexTask1.pile cexTask0.pile := by
  norm_num [inForbiddenZone, forbiddenRadius, cexTask0, cexTask1, cexPileA, cexPileB, cexCfg]

/-- Claim C1, as stated, is false of the modelled engine: in the completed
schedule of the two mutually-in-radius piles on two machines, the ordered
pair (A, B) := (second task, first task) has the pile of B inside the
forbidden radius of A, yet B starts before A ends plus
forbidden_duration_hours (the
claimed inequality cannot hold in both directions at once for a schedule
that completes both piles). -/
theorem claim1_counterexample :
    cexTask1 ∈ solveSchedule cexCfg cexDur [cexPileA, cexPileB] ∧
    cexTask0 ∈ solveSchedule cexCfg cexDur [cexPileA, cexPileB] ∧
    inForbiddenZone cexCfg cexTask1.pile cexTask0.pile ∧
    ¬ (cexTask1.end_hour + cexCfg.forbidden_duration_hours ≤ cexTask0.start_hour) := by
  refine ⟨?_, ?_, cexTasks_mutually_in_radius.2, ?_⟩
  · rw [cexSchedule_eq]; exact List.mem_cons_of_mem _ (List.mem_singleton_self _)
  · rw [cexSchedule_eq]; exact List.mem_cons_self _ _
  · norm_num [cexTask0, cexTask1, cexCfg]

/-- Claim C1 (amended): for every completed schedule and every ordered pile
pair (A, B) with B inside the post-completion forbidden radius of A, either
B starts at least forbidden_duration_hours after A ends, or the task of B
runs entirely before A starts; in particular the later of the two tasks
always waits out the forbidden window of the other, so two
mutually-in-radius piles are
serialized even when a second machine is idle. -/
theorem claim1_forbidden_zone_serialized (cfg : EngineConfig)
    (dur : ℕ → Pile → ℚ) (piles : List Pile) (tA tB : ScheduledTask)
    (hA : tA ∈ solveSchedule cfg dur piles) (hB : tB ∈ solveSchedule cfg dur piles)
    (hne : tA ≠ tB) (hin : inForbiddenZone cfg tA.pile tB.pile) :
    tA.end_hour + cfg.forbidden_duration_hours ≤ tB.start_hour ∨
      tB.end_hour ≤ tA.start_hour := by
  rcases solveSchedule_order_or cfg dur piles tA tB hA hB hne with h | h
  · exact Or.inl (h.2.2.1 hin)
  · exact Or.inr (h.2.2.2 hin)

theorem claim1_witness :
    cexTask0 ∈ solveSchedule cexCfg cexDur [cexPileA, cexPileB] ∧
    cexTask1 ∈ solveSchedule cexCfg cexDur [cexPileA, cexPileB] ∧
    inForbiddenZone cexCfg cexTask0.pile cexTask1.pile ∧
    (cexTask0.end_hour + cexCfg.forbidden_duration_hours ≤ cexTask1.start_hour ∨
      cexTask1.end_hour ≤ cexTask0.start_hour) :=
  ⟨by rw [cexSchedule_eq]; exact List.mem_cons_self _ _,
   by rw [cexSchedule_eq]; exact List.mem_cons_of_mem _ (List.mem_singleton_self _),
   cexTasks_mutually_in_radius.1,
   claim1_forbidden_zone_serialized cexCfg cexDur [cexPileA, cexPileB] cexTask0 cexTask1
     (by rw [cexSchedule_eq]; exact List.mem_cons_self _ _)
     (by rw [cexSchedule_eq]; exact List.mem_cons_of_mem _ (List.mem_singleton_self _))
     (by simp [cexTask0, cexTask1, cexPileA, cexPileB])
     cexTasks_mutually_in_radius.1⟩

/-- Claim C2: in every completed schedule, two distinct tasks whose piles
fall within the simultaneous-exclusion safety distance never overlap in
time, regardless of the machines they are assigned to. -/
theorem claim2_exclusion_no_overlap (cfg : EngineConfig)
    (dur : ℕ → Pile → ℚ) (piles : List Pile) (tA tB : ScheduledTask)
    (hA : tA ∈ solveSchedule cfg dur piles) (hB : tB ∈ solveSchedule cfg dur piles)
    (hne : tA ≠ tB) (hexcl : withinExclusion cfg tA.pile tB.pile) :
    ¬ timeOverlap tA tB := by
  intro hov
  rcases solveSchedule_order_or cfg dur piles tA tB hA hB hne with h | h
  · have := h.2.1 hexcl
    exact absurd hov.2 (not_lt.mpr this)
  · have := h.2.1 (withinExclusion_symm cfg tA.pile tB.pile hexcl)
    exact absurd hov.1 (not_lt.mpr this)

set_option maxHeartbeats 2000000 in
theorem w2Schedule_eq :
    solveSchedule w2Cfg cexDur [cexPileA, cexPileB] = [cexTask0, cexTask1] := by
  norm_num [solveSchedule, scheduleAux, mkTask, startTime, pairBound,
    machineOf, zoneOfIndex, effectiveNumZones, withinExclusion, inForbiddenZone,
    forbiddenRadius, int_two_toNat, w2Cfg, cexCfg, cexPileA, cexPileB, cexDur, cexTask0, cexTask1]

theorem w2_withinExclusion : withinExclusion w2Cfg cexTask0.pile cexTask1.pile := by
  norm_num [withinExclusion, w2Cfg, cexCfg, cexTask0, cexTask1, cexPileA, cexPileB]

theorem claim2_witness :
    withinExclusion w2Cfg cexTask0.pile cexTask1.pile ∧
    ¬ timeOverlap cexTask0 cexTask1 :=
  ⟨w2_withinExclusion,
    claim2_exclusion_no_overlap w2Cfg cexDur [cexPileA, cexPileB] cexTask0 cexTask1
      (by rw [w2Schedule_eq]; exact List.mem_cons_self _ _)
      (by rw [w2Schedule_eq]; exact List.mem_cons_of_mem _ (List.mem_singleton_self _))
      (by simp [cexTask0, cexTask1, cexPileA, cexPileB])
      w2_withinExclusion⟩

/-- Claim C5: in every completed result, the schedule covers the input piles
in order (so, for duplicate-free input, each pile appears in exactly one
task), the zone id of every task is the zone the partitioner assigned to its
pile, and every task has start strictly before end whenever the resolved
durations are positive. -/
theorem claim5_schedule_invariants (cfg : EngineConfig) (dur : ℕ → Pile → ℚ)
    (piles : List Pile) :
    (solveSchedule cfg dur piles).map ScheduledTask.pile = piles ∧
    (piles.Nodup → ∀ p ∈ piles,
      (solveSchedule cfg dur piles).countP (fun t => t.pile == p) = 1) ∧
    (solveSchedule cfg dur piles).map ScheduledTask.zone_id =
      zoneAssignment cfg.num_zones piles.length ∧
    ((∀ i p, 0 < dur i p) →
      ∀ t ∈ solveSchedule cfg dur piles, t.start_hour < t.end_hour) := by
  refine ⟨solveSchedule_map_pile cfg dur piles, ?_, solveSchedule_map_zone cfg dur piles,
    fun hdur => solveSchedule_start_lt_end cfg dur piles hdur⟩
  intro hnd p hp
  have hmap := solveSchedule_map_pile cfg dur piles
  have h1 : piles.count p = 1 := List.count_eq_one_of_mem hnd hp
  calc (solveSchedule cfg dur piles).countP (fun t => t.pile == p)
      = ((solveSchedule cfg dur piles).map ScheduledTask.pile).countP (fun q => q == p) := by
        rw [List.countP_map]; rfl
    _ = piles.count p := by rw [hmap]; rfl
    _ = 1 := h1

theorem claim5_witness :
    (solveSchedule cexCfg cexDur w5Piles).map ScheduledTask.pile = w5Piles ∧
    (solveSchedule cexCfg cexDur w5Piles).countP (fun t => t.pile == cexPileA) = 1 ∧
    (solveSchedule cexCfg cexDur w5Piles).map ScheduledTask.zone_id =
      zoneAssignment cexCfg.num_zones w5Piles.length ∧
    (∀ t ∈ solveSchedule cexCfg cexDur w5Piles, t.start_hour < t.end_hour) := by
  have h := claim5_schedule_invariants cexCfg cexDur w5Piles
  refine ⟨h.1, ?_, h.2.2.1, h.2.2.2 (fun i p => by norm_num [cexDur])⟩
  refine h.2.1 ?_ cexPileA (List.mem_cons_self _ _)
  simp [w5Piles, cexPileA, cexPileB]

theorem foldl_maxEnd_init (l : List ScheduledTask) (a : ℚ) :
    a ≤ l.foldl (fun acc u => max acc u.end_hour) a := by
  induction l generalizing a with
  | nil => exact le_refl a
  | cons u us ih => exact le_trans (le_max_left a u.end_hour) (ih (max a u.end_hour))

theorem foldl_maxEnd_mem (l : List ScheduledTask) (a : ℚ) :
    ∀ t ∈ l, t.end_hour ≤ l.foldl (fun acc u => max acc u.end_hour) a := by
  induction l generalizing a with
  | nil => intro t ht; cases ht
  | cons u us ih =>
      intro t ht
      rcases List.mem_cons.mp ht with rfl | hm
      · exact le_trans (le_max_right a t.end_hour) (foldl_maxEnd_init us _)
      · exact ih _ t hm

theorem foldl_maxEnd_attained (l : List ScheduledTask) (a : ℚ) :
    l.foldl (fun acc u => max acc u.end_hour) a = a ∨
    ∃ t ∈ l, l.foldl (fun acc u => max acc u.end_hour) a = t.end_hour := by
  induction l generalizing a with
  | nil => exact Or.inl rfl
  | cons u us ih =>
      rcases ih (max a u.end_hour) with h | ⟨t, ht, he⟩
      · rcases max_choice a u.end_hour with hm | hm
        · exact Or.inl (h.trans hm)
        · exact Or.inr ⟨u, List.mem_cons_self _ _, h.trans hm⟩
      · exact Or.inr ⟨t, List.mem_cons_of_mem _ ht, he⟩

theorem maxEnd_le (s : List ScheduledTask) : ∀ t ∈ s, t.end_hour ≤ maxEnd s := by
  intro t ht
  cases s with
  | nil => cases ht
  | cons u us =>
      rcases List.mem_cons.mp ht with rfl | hm
      · exact foldl_maxEnd_init us t.end_hour
      · exact foldl_maxEnd_mem us u.end_hour t hm

theorem maxEnd_attained (s : List ScheduledTask) (h : s ≠ []) :
    ∃ t ∈ s, maxEnd s = t.end_hour := by
  cases s with
  | nil => exact absurd rfl h
  | cons u us =>
      rcases foldl_maxEnd_attained us u.end_hour with h0 | ⟨t, ht, he⟩
      · exact ⟨u, List.mem_cons_self _ _, h0⟩
      · exact ⟨t, List.mem_cons_of_mem _ ht, he⟩

theorem solveSchedule_length (cfg : EngineConfig) (dur : ℕ → Pile → ℚ)
    (piles : List Pile) : (solveSchedule cfg dur piles).length = piles.length := by
  have h := congrArg List.length (solveSchedule_map_pile cfg dur piles)
  simpa using h

theorem solveRequest_ok_iff (ex : ℚ → ℚ) (req : Request) (res : OptimizationResult)
    (h : solveRequest ex req = Except.ok res) :
    validate req = none ∧ res = buildResult ex req := by
  unfold solveRequest at h
  cases hv : validate req with
  | some e => rw [hv] at h; exact absurd h (by simp)
  | none => rw [hv] at h; simp at h; exact ⟨rfl, h.symm⟩

theorem scheduleAux_weather (cfg : EngineConfig) (b : ℚ) (dur : ℕ → Pile → ℚ)
    (n : ℕ) (piles : List Pile) : ∀ (i : ℕ) (acc : List ScheduledTask),
    scheduleAux {cfg with weather_buffer_hours := b} dur n piles i acc =
      scheduleAux cfg dur n piles i acc := by
  induction piles with
  | nil => intro i acc; rfl
  | cons p rest ih => intro i acc; exact ih (i + 1) _

theorem solveSchedule_weather (cfg : EngineConfig) (b : ℚ) (dur : ℕ → Pile → ℚ)
    (piles : List Pile) :
    solveSchedule {cfg with weather_buffer_hours := b} dur piles =
      solveSchedule cfg dur piles :=
  scheduleAux_weather cfg b dur piles.length piles 0 []

theorem buildResult_weather (ex : ℚ → ℚ) (req : Request) (b : ℚ) :
    buildResult ex {req with cfg := {req.cfg with weather_buffer_hours := b}} =
      { status := "FEASIBLE"
        makespan_hours := maxEnd (bSched ex req)
        estimated_makespan_with_buffer := maxEnd (bSched ex req) + b
        completion_probability :=
          completionProbability (bTrials ex req) (maxEnd (bSched ex req) + b)
        num_simulations := (bTrials ex req).length
        schedule := bSched ex req } := by
  simp only [buildResult, bSched, bTrials]
  rw [solveSchedule_weather]
  rfl

theorem completionProbability_mono (trials : List ℚ) (t1 t2 : ℚ) (h : t1 ≤ t2) :
    completionProbability trials t1 ≤ completionProbability trials t2 := by
  unfold completionProbability
  rcases eq_or_ne trials [] with rfl | hne
  · simp
  · have hlen : 0 < (trials.length : ℚ) := by
      have h0 : 0 < trials.length := List.length_pos.mpr hne
      exact_mod_cast h0
    have hcount : trials.countP (fun m => decide (m ≤ t1)) ≤
        trials.countP (fun m => decide (m ≤ t2)) := by
      apply List.countP_mono_left
      intro x _ hx
      exact decide_eq_true (le_trans (of_decide_eq_true hx) h)
    exact (div_le_div_iff_of_pos_right hlen).mpr (by exact_mod_cast hcount)

/-- Claim C3: for every solve result, makespan_hours is exactly the maximum
end_hour over the returned schedule (it bounds the end of every task and is
attained by some task when the schedule is non-empty); the extraction is the
pure function maxEnd of the found assignment. -/
theorem claim3_makespan_extraction (ex : ℚ → ℚ) (req : Request)
    (res : OptimizationResult) (h : solveRequest ex req = Except.ok res)
    (hne : res.schedule ≠ []) :
    res.makespan_hours = maxEnd res.schedule ∧
    (∀ t ∈ res.schedule, t.end_hour ≤ res.makespan_hours) ∧
    ∃ t ∈ res.schedule, res.makespan_hours = t.end_hour := by
  obtain ⟨-, rfl⟩ := solveRequest_ok_iff ex req res h
  refine ⟨rfl, fun t ht => maxEnd_le _ t ht, ?_⟩
  rcases maxEnd_attained _ hne with ⟨t, ht, he⟩
  exact ⟨t, ht, he⟩

theorem wReq_validate : validate wReq = none := by decide

theorem wReq_solve : solveRequest wEx wReq = Except.ok (buildResult wEx wReq) := by
  unfold solveRequest
  rw [wReq_validate]

theorem wReq_schedule_ne : (buildResult wEx wReq).schedule ≠ [] := by
  have hlen : (buildResult wEx wReq).schedule.length = 2 := by
    show (solveSchedule wReq.cfg
      (resolveDur wEx wReq.cfg ((parseScenario wReq.cfg.duration_scenario).getD .expected))
      wReq.piles).length = 2
    rw [solveSchedule_length]
    rfl
  intro h0
  rw [h0] at hlen
  cases hlen

theorem claim3_witness :
    solveRequest wEx wReq = Except.ok (buildResult wEx wReq) ∧
    ((buildResult wEx wReq).makespan_hours = maxEnd (buildResult wEx wReq).schedule ∧
      (∀ t ∈ (buildResult wEx wReq).schedule,
        t.end_hour ≤ (buildResult wEx wReq).makespan_hours) ∧
      ∃ t ∈ (buildResult wEx wReq).schedule,
        (buildResult wEx wReq).makespan_hours = t.end_hour) :=
  ⟨wReq_solve,
    claim3_makespan_extraction wEx wReq (buildResult wEx wReq) wReq_solve wReq_schedule_ne⟩

/-- Claim C4: completion_probability is the fraction of Monte-Carlo trial
makespans at or below estimated_makespan_with_buffer, which is the
deterministic makespan plus weather_buffer_hours; and, holding the piles,
assignment, seed and every other parameter fixed, completion_probability is
non-decreasing in weather_buffer_hours. -/
theorem claim4_completion_probability :
    (∀ (ex : ℚ → ℚ) (req : Request) (res : OptimizationResult),
      solveRequest ex req = Except.ok res →
      res.estimated_makespan_with_buffer =
        res.makespan_hours + req.cfg.weather_buffer_hours ∧
      res.completion_probability =
        completionProbability
          (trialMakespans req.cfg res.schedule globalSeed
            req.cfg.monte_carlo_simulations)
          res.estimated_makespan_with_buffer) ∧
    (∀ (ex : ℚ → ℚ) (req : Request) (b1 b2 : ℚ) (res1 res2 : OptimizationResult),
      b1 ≤ b2 →
      solveRequest ex {req with cfg := {req.cfg with weather_buffer_hours := b1}} =
        Except.ok res1 →
      solveRequest ex {req with cfg := {req.cfg with weather_buffer_hours := b2}} =
        Except.ok res2 →
      res1.completion_probability ≤ res2.completion_probability) := by
  constructor
  · intro ex req res h
    obtain ⟨-, rfl⟩ := solveRequest_ok_iff ex req res h
    exact ⟨rfl, rfl⟩
  · intro ex req b1 b2 res1 res2 hb h1 h2
    obtain ⟨-, rfl⟩ := solveRequest_ok_iff ex _ res1 h1
    obtain ⟨-, rfl⟩ := solveRequest_ok_iff ex _ res2 h2
    rw [buildResult_weather ex req b1, buildResult_weather ex req b2]
    exact completionProbability_mono (bTrials ex req) _ _ (by linarith)

theorem wReqB_solve (b : ℚ) :
    solveRequest wEx {wReq with cfg := {wReq.cfg with weather_buffer_hours := b}} =
      Except.ok (buildResult wEx {wReq with cfg := {wReq.cfg with weather_buffer_hours := b}}) := by
  unfold solveRequest
  have hv : validate {wReq with cfg := {wReq.cfg with weather_buffer_hours := b}} = none :=
    wReq_validate
  rw [hv]

theorem claim4_witness :
    solveRequest wEx {wReq with cfg := {wReq.cfg with weather_buffer_hours := (0 : ℚ)}} =
      Except.ok (buildResult wEx {wReq with cfg := {wReq.cfg with weather_buffer_hours := (0 : ℚ)}}) ∧
    ((0 : ℚ) ≤ 5) ∧
    (buildResult wEx {wReq with cfg := {wReq.cfg with weather_buffer_hours := (0 : ℚ)}}).estimated_makespan_with_buffer =
      (buildResult wEx {wReq with cfg := {wReq.cfg with weather_buffer_hours := (0 : ℚ)}}).makespan_hours +
        ({wReq with cfg := {wReq.cfg with weather_buffer_hours := (0 : ℚ)}} : Request).cfg.weather_buffer_hours ∧
    (buildResult wEx {wReq with cfg := {wReq.cfg with weather_buffer_hours := (0 : ℚ)}}).completion_probability ≤
      (buildResult wEx {wReq with cfg := {wReq.cfg with weather_buffer_hours := (5 : ℚ)}}).completion_probability :=
  ⟨wReqB_solve 0, by norm_num,
    (claim4_completion_probability.1 wEx _ _ (wReqB_solve 0)).1,
    claim4_completion_probability.2 wEx wReq 0 5 _ _ (by norm_num)
      (wReqB_solve 0) (wReqB_solve 5)⟩

/-- Claim C8: a request whose duration_scenario does not parse, or that
contains a pile of an unconfigured type, fails with a validation or
configuration error; no result record (and hence no schedule) is produced,
the request never reaching model construction. -/
theorem claim8_validation_rejects (ex : ℚ → ℚ) (req : Request)
    (h : parseScenario req.cfg.duration_scenario = none ∨
      ∃ p ∈ req.piles, lookupTypeParams req.cfg p.ptype = none) :
    (∃ e, solveRequest ex req = Except.error e) ∧
    ∀ res, solveRequest ex req ≠ Except.ok res := by
  have herr : ∃ e, validate req = some e := by
    unfold validate
    by_cases hnd : (req.piles.map Pile.id).Nodup
    · rw [if_pos hnd]
      by_cases hm : req.cfg.num_machines ≤ 0
      · rw [if_pos hm]; exact ⟨_, rfl⟩
      · rw [if_neg hm]
        cases hsc : parseScenario req.cfg.duration_scenario with
        | none => exact ⟨_, rfl⟩
        | some s =>
            rcases h with h | ⟨p, hp, hnone⟩
            · rw [hsc] at h; cases h
            · have hany : req.piles.any
                  (fun p => (lookupTypeParams req.cfg p.ptype).isNone) = true := by
                rw [List.any_eq_true]
                exact ⟨p, hp, by rw [hnone]; rfl⟩
              rw [if_pos hany]
              exact ⟨_, rfl⟩
    · rw [if_neg hnd]; exact ⟨_, rfl⟩
  rcases herr with ⟨e, he⟩
  have hsolve : solveRequest ex req = Except.error e := by
    unfold solveRequest
    rw [he]
  exact ⟨⟨e, hsolve⟩, fun res hok => by rw [hsolve] at hok; cases hok⟩

theorem claim8_witness :
    parseScenario wBadReq.cfg.duration_scenario = none ∧
    (∃ e, solveRequest wEx wBadReq = Except.error e) ∧
    ∀ res, solveRequest wEx wBadReq ≠ Except.ok res := by
  have hsc : parseScenario wBadReq.cfg.duration_scenario = none := by decide
  exact ⟨hsc, claim8_validation_rejects wEx wBadReq (Or.inl hsc)⟩

/-- Claim C6: for each fixed scenario other than random_sample the resolver
is the stated closed-form log-normal functional of (mu, sigma) — expected
exp(mu + sigma^2/2), pessimistic_90 exp(mu + sigma z90), most_likely
exp(mu - sigma^2) — computed in the log domain and deterministic (it is a
pure function of its arguments); and for random_sample equal seeds
reproduce identical per-pile durations. -/
theorem claim6_duration_resolver :
    (∀ (mu sg : ℚ) (seed i : ℕ),
      resolveLogDuration .expected seed i mu sg = mu + sg * sg / 2 ∧
      resolveLogDuration .pessimistic90 seed i mu sg = mu + sg * z90 ∧
      resolveLogDuration .mostLikely seed i mu sg = mu - sg * sg) ∧
    (∀ (mu sg : ℚ) (seed i : ℕ),
      Real.exp ((resolveLogDuration .expected seed i mu sg : ℚ) : ℝ) =
        Real.exp ((mu : ℝ) + (sg : ℝ) * (sg : ℝ) / 2) ∧
      Real.exp ((resolveLogDuration .pessimistic90 seed i mu sg : ℚ) : ℝ) =
        Real.exp ((mu : ℝ) + (sg : ℝ) * ((z90 : ℚ) : ℝ)) ∧
      Real.exp ((resolveLogDuration .mostLikely seed i mu sg : ℚ) : ℝ) =
        Real.exp ((mu : ℝ) - (sg : ℝ) * (sg : ℝ))) ∧
    (∀ (s1 s2 : ℕ) (sc : Scenario) (i : ℕ) (mu sg : ℚ), s1 = s2 →
      resolveLogDuration sc s1 i mu sg = resolveLogDuration sc s2 i mu sg) := by
  refine ⟨fun mu sg seed i => ⟨rfl, rfl, rfl⟩, fun mu sg seed i => ⟨?_, ?_, ?_⟩,
    fun s1 s2 sc i mu sg h => by rw [h]⟩
  · exact congrArg Real.exp (by push_cast [resolveLogDuration]; ring)
  · exact congrArg Real.exp (by push_cast [resolveLogDuration]; ring)
  · exact congrArg Real.exp (by push_cast [resolveLogDuration]; ring)

theorem claim6_witness :
    resolveLogDuration .expected 0 0 (316 / 100) (63 / 100) =
      316 / 100 + (63 / 100) * (63 / 100) / 2 ∧
    ((7 : ℕ) = 7) ∧
    resolveLogDuration .randomSample 7 4 (316 / 100) (63 / 100) =
      resolveLogDuration .randomSample 7 4 (316 / 100) (63 / 100) :=
  ⟨(claim6_duration_resolver.1 (316 / 100) (63 / 100) 0 0).1, rfl,
    claim6_duration_resolver.2.2 7 7 .randomSample 4 (316 / 100) (63 / 100) rfl⟩

/-- Claim C7: the partitioner is total and deterministic (equal inputs give
the equal partition), puts every pile in its own zone when num_zones is at
least the pile count, collapses to a single zone when num_zones is
non-positive, and always yields a valid partition: one zone per pile, every
zone id below the effective zone count, and every zone non-empty. -/
theorem claim7_partitioner (k1 k2 : ℤ) (n1 n2 : ℕ) :
    (k1 = k2 → n1 = n2 → zoneAssignment k1 n1 = zoneAssignment k2 n2) ∧
    ((n1 : ℤ) ≤ k1 → zoneAssignment k1 n1 = List.range n1) ∧
    (k1 ≤ 0 → ∀ z ∈ zoneAssignment k1 n1, z = 0) ∧
    (zoneAssignment k1 n1).length = n1 ∧
    (∀ z ∈ zoneAssignment k1 n1, z < effectiveNumZones k1 n1) ∧
    (∀ j < effectiveNumZones k1 n1, j ∈ zoneAssignment k1 n1) :=
  ⟨fun hk hn => by rw [hk, hn], zoneAssignment_own_zone k1 n1,
    zoneAssignment_single k1 n1, zoneAssignment_length k1 n1,
    zoneAssignment_lt k1 n1, zoneAssignment_surj k1 n1⟩

theorem claim7_witness :
    ((3 : ℤ) = 3 ∧ zoneAssignment 3 5 = zoneAssignment 3 5) ∧
    (((5 : ℕ) : ℤ) ≤ 7 ∧ zoneAssignment 7 5 = List.range 5) ∧
    ((-2 : ℤ) ≤ 0 ∧ ∀ z ∈ zoneAssignment (-2) 4, z = 0) ∧
    (zoneAssignment 3 5).length = 5 ∧
    (∀ z ∈ zoneAssignment 3 5, z < effectiveNumZones 3 5) ∧
    (∀ j < effectiveNumZones 3 5, j ∈ zoneAssignment 3 5) :=
  ⟨⟨rfl, (claim7_partitioner 3 3 5 5).1 rfl rfl⟩,
    ⟨by norm_num, (claim7_partitioner 7 7 5 5).2.1 (by norm_num)⟩,
    ⟨by norm_num, (claim7_partitioner (-2) (-2) 4 4).2.2.1 (by norm_num)⟩,
    (claim7_partitioner 3 3 5 5).2.2.2.1,
    (claim7_partitioner 3 3 5 5).2.2.2.2.1,
    (claim7_partitioner 3 3 5 5).2.2.2.2.2⟩

/-- Claim C9: on CSV upload every row with a non-parsing x, y, type or
diameter is dropped without failing the upload; the previously loaded data
is replaced exactly when at least one valid row remains (and on a failed
header check nothing changes); every record in the new state comes from the
previous state or from a row that parsed successfully. -/
theorem claim9_csv_upload (prev : List PileRecord) (rows : List CsvRow) :
    (validateCsvHeaders rows = true →
      (rows.filterMap parsePileRow ≠ [] →
        handleFileUpload prev rows = rows.filterMap parsePileRow) ∧
      (rows.filterMap parsePileRow = [] → handleFileUpload prev rows = prev)) ∧
    (validateCsvHeaders rows = false → handleFileUpload prev rows = prev) ∧
    (∀ rec ∈ handleFileUpload prev rows,
      rec ∈ prev ∨ ∃ r ∈ rows, parsePileRow r = some rec) := by
  refine ⟨fun hh => ⟨fun hne => ?_, fun hnil => ?_⟩, fun hh => ?_, fun rec hrec => ?_⟩
  · unfold handleFileUpload
    rw [if_pos hh, if_pos (by simpa [List.length_pos] using hne)]
  · unfold handleFileUpload
    rw [if_pos hh, if_neg (by simp [hnil])]
  · unfold handleFileUpload
    rw [if_neg (by simp [hh])]
  · unfold handleFileUpload at hrec
    by_cases hh : validateCsvHeaders rows
    · rw [if_pos hh] at hrec
      by_cases hlen : 0 < (rows.filterMap parsePileRow).length
      · rw [if_pos hlen] at hrec
        rcases List.mem_filterMap.mp hrec with ⟨r, hr, hpr⟩
        exact Or.inr ⟨r, hr, hpr⟩
      · rw [if_neg hlen] at hrec
        exact Or.inl hrec
    · rw [if_neg hh] at hrec
      exact Or.inl hrec

theorem claim9_witness :
    validateCsvHeaders [wRowGood, wRowBad] = true ∧
    [wRowGood, wRowBad].filterMap parsePileRow ≠ [] ∧
    parsePileRow wRowBad = none ∧
    handleFileUpload wPrev [wRowGood, wRowBad] =
      [wRowGood, wRowBad].filterMap parsePileRow ∧
    handleFileUpload wPrev [wRowBad] = wPrev :=
  ⟨by decide, by decide, by decide,
    ((claim9_csv_upload wPrev [wRowGood, wRowBad]).1 (by decide)).1 (by decide),
    ((claim9_csv_upload wPrev [wRowBad]).1 (by decide)).2 (by decide)⟩

/-- Claim C10, as stated, is false of the code: with the default
configuration, updating num_machines (a numeric parameter) with the JS
number Infinity — an input that does not convert to a finite number — is
not rejected, because the code only guards against NaN: the configuration
is changed, its num_machines field becoming Infinity. -/
theorem claim10_counterexample :
    isNumberType (defaultConfigParams ParamKey.num_machines) = true ∧
    jsToNumValue (JSValue.num JSNum.inf) = JSNum.inf ∧
    handleParamChange defaultConfigParams ParamKey.num_machines
        (JSValue.num JSNum.inf) ParamKey.num_machines ≠
      defaultConfigParams ParamKey.num_machines := by
  exact ⟨rfl, rfl, by decide⟩

/-- Claim C10 (amended): for a parameter whose current value is a number,
an input converting to NaN (including null and undefined) leaves the whole
configuration object unchanged, while an input converting to any JS number
— finite or infinite — updates exactly the named parameter to that number
and leaves every other parameter unchanged. -/
theorem claim10_param_update (cfg : ParamKey → JSValue) (p : ParamKey)
    (v : JSValue) (hnum : isNumberType (cfg p) = true) :
    (jsToNumValue v = JSNum.nan → handleParamChange cfg p v = cfg) ∧
    (jsToNumValue v ≠ JSNum.nan →
      handleParamChange cfg p v p = JSValue.num (jsToNumValue v) ∧
      ∀ q, q ≠ p → handleParamChange cfg p v q = cfg q) := by
  constructor
  · intro hn
    unfold handleParamChange
    rw [if_pos hnum, if_neg (by simp [hn])]
  · intro hn
    unfold handleParamChange
    rw [if_pos hnum, if_pos hn]
    exact ⟨by simp [updateConfigParam], fun q hq => by simp [updateConfigParam, hq]⟩

theorem claim10_witness :
    isNumberType (defaultConfigParams ParamKey.num_zones) = true ∧
    jsToNumValue JSValue.null = JSNum.nan ∧
    handleParamChange defaultConfigParams ParamKey.num_zones JSValue.null =
      defaultConfigParams ∧
    jsToNumValue (JSValue.num (JSNum.fin 7)) ≠ JSNum.nan ∧
    handleParamChange defaultConfigParams ParamKey.num_zones
        (JSValue.num (JSNum.fin 7)) ParamKey.num_zones =
      JSValue.num (jsToNumValue (JSValue.num (JSNum.fin 7))) ∧
    ∀ q, q ≠ ParamKey.num_zones →
      handleParamChange defaultConfigParams ParamKey.num_zones
          (JSValue.num (JSNum.fin 7)) q =
        defaultConfigParams q :=
  ⟨rfl, rfl,
    (claim10_param_update defaultConfigParams ParamKey.num_zones JSValue.null rfl).1 rfl,
    by decide,
    ((claim10_param_update defaultConfigParams ParamKey.num_zones
      (JSValue.num (JSNum.fin 7)) rfl).2 (by decide)).1,
    ((claim10_param_update defaultConfigParams ParamKey.num_zones
      (JSValue.num (JSNum.fin 7)) rfl).2 (by decide)).2⟩


end AlphaPile
